import Mathlib

/-!
Verification of the `starlette-caches` HTTP response-caching middleware.

The development shallowly embeds the repository's caching logic:

* `rules.py` — `Rule`, `request_matches_rule`, `response_matches_rule`,
  `get_rule_matching_request`, `get_rule_matching_response`;
* `middleware.py` — `CacheMiddleware.__call__`, `CacheResponder.__call__`,
  `CacheResponder.send_with_caching`, `CacheResponder.send_then_invalidate`,
  `CacheControlMiddleware.__call__`;
* the cache utility module (`get_from_cache`, `store_in_cache`,
  `delete_from_cache`, `INVALIDATING_METHODS`), which is not part of the
  sources at hand and is therefore modelled from the specification, as
  marked on each such definition.

Python `re.Pattern` values are embedded as their anchored-at-start match
function (`String → Bool`), which is exactly how `pattern.match(path)`
consumes them in `rules.py`.  Byte strings are `List Nat`.  ASGI messages
are the two-constructor type `Message`.
-/

set_option autoImplicit false

namespace StarletteCaches

/-- HTTP headers as an ordered list of (name, value) pairs. -/
abbrev Headers := List (String × String)

/-- ASCII lower-casing of a character, used for case-insensitive header names. -/
def lowerChar (c : Char) : Char :=
  if 'A' ≤ c ∧ c ≤ 'Z' then Char.ofNat (c.toNat + 32) else c

/-- ASCII lower-casing of a string. -/
def lowerStr (s : String) : String :=
  ⟨s.data.map lowerChar⟩

/-- Look up a header value by case-insensitive name (first occurrence wins). -/
def headerGet : Headers → String → Option String
  | [], _ => none
  | p :: ps, name =>
    if lowerStr p.1 = lowerStr name then some p.2 else headerGet ps name

/-- Replace a header (case-insensitive name) or append it when absent. -/
def setHeader : Headers → String → String → Headers
  | [], name, value => [(name, value)]
  | p :: ps, name, value =>
    if lowerStr p.1 = lowerStr name then (name, value) :: ps
    else p :: setHeader ps name value

/-- Inbound request descriptor: method, path and headers. -/
structure Request where
  method : String
  path : String
  headers : Headers
deriving DecidableEq

/-- Captured response: status, headers and a fully materialised body. -/
structure Response where
  status_code : Nat
  headers : Headers
  body : List Nat
deriving DecidableEq

/-- One member of a `Rule.match` value: a literal string or a compiled
pattern, the latter embedded as its anchored-at-start match function. -/
inductive MatchItem where
  | str (s : String)
  | pattern (matchAtStart : String → Bool)

/-- `Rule.match` is a single item or an iterable of items
(`str | re.Pattern | Iterable[str] | Iterable[re.Pattern]`). -/
inductive RuleMatch where
  | single (item : MatchItem)
  | items (l : List MatchItem)

/-- `Rule.status` is `None`, a single integer or an iterable of integers. -/
inductive StatusSpec where
  | single (n : Nat)
  | many (l : List Nat)
deriving DecidableEq

/-- A caching rule (`rules.Rule`): path match, optional status filter and
optional ttl.  The defaults mirror `Rule()` in the source: match `"*"`,
no status filter, unset ttl. -/
structure Rule where
  «match» : RuleMatch := .single (.str "*")
  status : Option StatusSpec := none
  ttl : Option Nat := none

/-- Normalisation used by `request_matches_rule`: a single item becomes a
one-element list, an iterable is taken as given. -/
def ruleMatchList : RuleMatch → List MatchItem
  | .single item => [item]
  | .items l => l

/-- The body of `request_matches_rule`'s loop: a pattern is consulted via
its match function, otherwise the literal matches when it is `"*"` or
exactly equals the path. -/
def matchItemAccepts (item : MatchItem) (path : String) : Bool :=
  match item with
  | .pattern p => p path
  | .str s => s == "*" || s == path

/-- `rules.request_matches_rule`: the rule matches when any member of the
(normalised) `match` list accepts the request path. -/
def request_matches_rule (rule : Rule) (request : Request) : Bool :=
  (ruleMatchList rule.«match»).any (fun item => matchItemAccepts item request.path)

/-- Normalisation used by `response_matches_rule` for the status filter. -/
def statusList : StatusSpec → List Nat
  | .single n => [n]
  | .many l => l

/-- `rules.response_matches_rule`: the path must match, and when a status
filter is declared the response status must be a member of it. -/
def response_matches_rule (rule : Rule) (request : Request) (response : Response) :
    Bool :=
  request_matches_rule rule request &&
    match rule.status with
    | none => true
    | some spec => (statusList spec).contains response.status_code

/-- `rules.get_rule_matching_request`: first rule (in declaration order)
whose `match` accepts the request path, or `none`. -/
def get_rule_matching_request (rules : List Rule) (request : Request) :
    Option Rule :=
  rules.find? (fun rule => request_matches_rule rule request)

/-- `rules.get_rule_matching_response`: first rule (in declaration order)
matching both the request path and the response status, or `none`. -/
def get_rule_matching_response (rules : List Rule) (request : Request)
    (response : Response) : Option Rule :=
  rules.find? (fun rule => response_matches_rule rule request response)

/-! ## Cache store and key derivation

The cache utility module is not among the sources at hand (only its
callers and the exception classes are), so its operations are modelled
from the specification, as the doc comment of each definition states. -/

/-- A derived cache key: path together with the ordered list of
(vary-header-name, request-value) pairs (§3 CacheKey).  The request
method is deliberately absent: HEAD and GET requests to the same path
and varying-header values must resolve to the same key (§4.3). -/
structure CacheKey where
  path : String
  vary : List (String × String)
deriving DecidableEq

/-- The abstract key-value cache store together with the `Vary` metadata
persisted alongside entries (§4.3 strategy (b)): `varyIndex` records, per
path, which header names the cached response varies on; `entries` maps
final keys to stored responses. -/
structure CacheState where
  varyIndex : List (String × List String)
  entries : List (CacheKey × Response)
deriving DecidableEq

/-- The empty cache store. -/
def emptyCache : CacheState := ⟨[], []⟩

/-- First-match association-list lookup. -/
def alistGet {α β : Type} [DecidableEq α] : List (α × β) → α → Option β
  | [], _ => none
  | p :: ps, k => if p.1 = k then some p.2 else alistGet ps k

/-- Association-list update: the new binding shadows any older one. -/
def alistPut {α β : Type} (l : List (α × β)) (k : α) (v : β) : List (α × β) :=
  (k, v) :: l

/-- Split a character list on commas (for parsing a `Vary` header value). -/
def splitCommaAux : List Char → List Char → List (List Char)
  | [], acc => [acc.reverse]
  | c :: cs, acc =>
    if c = ',' then acc.reverse :: splitCommaAux cs []
    else splitCommaAux cs (c :: acc)

/-- Whitespace for trimming `Vary` members. -/
def isSpaceChar (c : Char) : Bool := c = ' ' || c = '\t'

/-- Trim leading and trailing whitespace from a character list. -/
def trimChars (l : List Char) : List Char :=
  ((l.dropWhile isSpaceChar).reverse.dropWhile isSpaceChar).reverse

/-- Modelled from the spec: the list of varying header names declared by a
response's `Vary` header — comma-separated names, trimmed, matched
case-insensitively (§4.3), hence stored lower-cased; no `Vary` header
means the empty list (§3 CacheKey). -/
def varyNames (headers : Headers) : List String :=
  match headerGet headers "vary" with
  | none => []
  | some v => (splitCommaAux v.data []).map (fun cs => lowerStr ⟨trimChars cs⟩)

/-- Modelled from the spec: `deriveKey` (§4.3) — the cache key is the path
plus, for each varying header name, the request's value for it, an empty
value standing in when the request lacks the header (§3 CacheKey). -/
def deriveKey (path : String) (vary : List String) (requestHeaders : Headers) :
    CacheKey :=
  ⟨path, vary.map (fun n => (n, (headerGet requestHeaders n).getD ""))⟩

/-- Outcome of the modelled fallible cache operations: `error` stands for
the corresponding `RequestNotCachable` / `ResponseNotCachable` exception. -/
abbrev CacheOp (α : Type) := Except Unit α

/-- Modelled from the spec: `INVALIDATING_METHODS` from the cache utility
module — the mutating verbs routed to the invalidation path (§4.2). -/
def INVALIDATING_METHODS : List String := ["POST", "PUT", "PATCH", "DELETE"]

/-- Modelled from the spec: `store_in_cache` from the cache utility module.
Classification (§4.1, §4.2): the first rule matching path and status
applies; no matching rule, an effective ttl of zero, or — when the rule
declares no status filter — a status other than 200, raise
`ResponseNotCachable` (the `.error` case).  On success the response gains
an `X-Cache: miss` header (§6), the `Vary` metadata and the entry are
written under the derived key (§4.4), and — the write being best-effort —
a store I/O failure (`writeOk = false`) is caught at the point of use and
degrades to not-stored without raising (§5, §7). -/
def store_in_cache (response : Response) (request : Request)
    (cache : CacheState) (rules : List Rule) (writeOk : Bool) :
    CacheOp (Response × CacheState) :=
  match get_rule_matching_response rules request response with
  | none => .error ()
  | some rule =>
    if rule.ttl = some 0 then .error ()
    else if rule.status = none ∧ response.status_code ≠ 200 then .error ()
    else
      let response' :=
        { response with headers := setHeader response.headers "X-Cache" "miss" }
      if writeOk then
        let vary := varyNames response.headers
        let key := deriveKey request.path vary request.headers
        .ok (response',
          ⟨alistPut cache.varyIndex request.path vary,
           alistPut cache.entries key response'⟩)
      else
        .ok (response', cache)

/-- Modelled from the spec: `get_from_cache` from the cache utility module.
A request is not cachable (`.error`, i.e. `RequestNotCachable`) unless its
method is GET or HEAD (§4.2) or when no rule matches its path (§4.1
no-match ⇒ not cachable).  Otherwise the `Vary` metadata for the path is
fetched first and the final key re-derived from it (§4.3 strategy (b));
a stored response is replayed with its `X-Cache` header set to `hit`
(§6), and an absent index or entry is a miss (`.ok none`). -/
def get_from_cache (request : Request) (cache : CacheState)
    (rules : List Rule) : CacheOp (Option Response) :=
  if request.method = "GET" ∨ request.method = "HEAD" then
    match get_rule_matching_request rules request with
    | none => .error ()
    | some _ =>
      match alistGet cache.varyIndex request.path with
      | none => .ok none
      | some vary =>
        match alistGet cache.entries (deriveKey request.path vary request.headers) with
        | none => .ok none
        | some e =>
          .ok (some ⟨e.status_code, setHeader e.headers "X-Cache" "hit", e.body⟩)
  else .error ()

/-- Modelled from the spec: `delete_from_cache` from the cache utility
module (§4.6) — the entry whose key derivation for the URL and supplied
headers matches a stored entry is removed; with no `Vary` metadata for
the path there is nothing to delete. -/
def delete_from_cache (path : String) (vary : Headers) (cache : CacheState) :
    CacheState :=
  match alistGet cache.varyIndex path with
  | none => cache
  | some names =>
    let key := deriveKey path names vary
    { cache with entries := cache.entries.filter (fun p => decide (p.1 ≠ key)) }

/-! ## The response interceptor (`middleware.py`) -/

/-- An ASGI response message: `http.response.start` (status, headers) or
`http.response.body` (chunk, `more_body` flag). -/
inductive Message where
  | start (status : Nat) (headers : Headers)
  | body (chunk : List Nat) (more : Bool)
deriving DecidableEq

/-- `message["status"]` of a buffered start message (only ever read on
start messages in well-formed runs). -/
def Message.statusOf : Message → Nat
  | .start s _ => s
  | .body _ _ => 0

/-- `message["headers"]` of a buffered start message. -/
def Message.headersOf : Message → Headers
  | .start _ h => h
  | .body _ _ => []

/-- Mutable state of one `CacheResponder` (`middleware.py` lines 141-143):
the deferred initial message, the cachability flag, plus the shared cache
store that `store_in_cache` writes to. -/
structure ResponderState where
  initial_message : Option Message
  is_response_cachable : Bool
  cache : CacheState

/-- Fresh responder state over a given cache store: no buffered message,
`is_response_cachable = True`. -/
def initResponder (cache : CacheState) : ResponderState :=
  ⟨none, true, cache⟩

/-- `CacheResponder.send_with_caching` for one message: returns the new
responder state and the messages forwarded to the wrapped `send`.
Mirrors `middleware.py` lines 165-202: a non-cachable response passes
through; a start message is buffered; a chunk with `more_body` flips the
response to non-cachable and flushes the buffered start followed by the
chunk; a final chunk is assembled into a `Response` and offered to
`store_in_cache` — on `ResponseNotCachable` the response is marked
non-cachable, on success the headers patched by the store are applied to
the buffered start — and in either case the (possibly patched) start and
the chunk are sent. -/
def send_with_caching (request : Request) (rules : List Rule) (writeOk : Bool)
    (st : ResponderState) (message : Message) : ResponderState × List Message :=
  if !st.is_response_cachable then (st, [message])
  else
    match message with
    | .start _ _ => ({ st with initial_message := some message }, [])
    | .body chunk more =>
      let init := st.initial_message.getD (.start 0 [])
      if more then
        ({ st with is_response_cachable := false }, [init, message])
      else
        let response : Response := ⟨init.statusOf, init.headersOf, chunk⟩
        match store_in_cache response request st.cache rules writeOk with
        | .error () =>
          ({ st with is_response_cachable := false }, [init, message])
        | .ok (response', cache') =>
          let init' := Message.start init.statusOf response'.headers
          ({ st with initial_message := some init', cache := cache' },
           [init', message])

/-- Run the responder over a whole sequence of messages, concatenating
everything forwarded downstream. -/
def runResponder (request : Request) (rules : List Rule) (writeOk : Bool) :
    ResponderState → List Message → ResponderState × List Message
  | st, [] => (st, [])
  | st, m :: ms =>
    let r := send_with_caching request rules writeOk st m
    let rest := runResponder request rules writeOk r.1 ms
    (rest.1, r.2 ++ rest.2)

/-- `CacheResponder.send_then_invalidate` for one message (`middleware.py`
lines 204-215): on a start message with status in `[200, 400)` the entry
keyed to the request URL is deleted; every message is forwarded. -/
def send_then_invalidate (request : Request) (cache : CacheState)
    (message : Message) : CacheState × List Message :=
  match message with
  | .start s _ =>
    if 200 ≤ s ∧ s < 400 then
      (delete_from_cache request.path request.headers cache, [message])
    else (cache, [message])
  | .body _ _ => (cache, [message])

/-- How `CacheResponder.__call__` proceeds after the lookup phase. -/
inductive RespondPath where
  | replayHit (response : Response)
  | missCaching
  | invalidate
  | plain
deriving DecidableEq

/-- `CacheResponder.__call__` (`middleware.py` lines 145-163): a cache hit
is replayed without invoking the app; a miss attaches
`send_with_caching`; a `RequestNotCachable` from the lookup is recovered
locally — with an invalidating method the app runs under
`send_then_invalidate`, otherwise under the original `send`. -/
def responderCall (request : Request) (cache : CacheState) (rules : List Rule) :
    RespondPath :=
  match get_from_cache request cache rules with
  | .error () =>
    if INVALIDATING_METHODS.contains request.method then .invalidate else .plain
  | .ok (some response) => .replayHit response
  | .ok none => .missCaching

/-- An ASGI scope, reduced to what `CacheMiddleware.__call__` inspects:
its `type` and whether the `__asgi_caches__` marker is already present. -/
structure Scope where
  type : String
  hasCacheMarker : Bool
deriving DecidableEq

/-- `CacheMiddleware.__call__` (`middleware.py` lines 69-91): `.error`
stands for raising `DuplicateCaching`; otherwise the scope passed on to
the wrapped app is returned together with whether a `CacheResponder` was
attached.  A non-http scope is forwarded unchanged with no duplicate
check, no marker and no responder. -/
def cacheMiddlewareCall (scope : Scope) : Except Unit (Scope × Bool) :=
  if scope.type ≠ "http" then .ok (scope, false)
  else if scope.hasCacheMarker then .error ()
  else .ok ({ scope with hasCacheMarker := true }, true)

/-- `CacheControlMiddleware.__call__` (`middleware.py` lines 253-258):
returns whether the `send` callable is wrapped by a
`CacheControlResponder`; a non-http scope is passed through untouched. -/
def cacheControlMiddlewareCall (scope : Scope) : Bool :=
  scope.type = "http"

/-! ## Spec-side matcher (for the refinement claim about `matchResponse`)

The following definitions transcribe §4.1 of the specification verbatim,
to be compared with the embedding of `rules.py` above. -/

/-- Spec §4.1 precedence for one `match` member: literal `"*"` always
matches; a literal string matches only on exact path equality; a pattern
matches if it matches the path anchored at the start. -/
def specItemMatches (item : MatchItem) (path : String) : Bool :=
  match item with
  | .str s => if s = "*" then true else decide (s = path)
  | .pattern p => p path

/-- Spec §4.1: a set of match values matches if any member matches. -/
def specPathMatches (m : RuleMatch) (path : String) : Bool :=
  match m with
  | .single item => specItemMatches item path
  | .items l => l.any (fun item => specItemMatches item path)

/-- Spec §4.1 `matchResponse`: the first rule (in order) whose path match
succeeds and — only if the rule declares a `status` set — whose status
set contains the response status; a rule with no declared `status`
matches every status; `none` when no rule satisfies the criteria. -/
def spec_matchResponse (rules : List Rule) (path : String) (status : Nat) :
    Option Rule :=
  rules.find? (fun rule =>
    specPathMatches rule.«match» path &&
      match rule.status with
      | none => true
      | some spec => (statusList spec).contains status)

/-! ## Remaining helper definitions -/

/-- A well-formed ASGI body sequence: every chunk but the last carries
`more_body = True` and the final chunk carries `more_body = False`. -/
def wellFormedBodies : List Message → Bool
  | [] => false
  | .start _ _ :: _ => false
  | .body _ false :: rest => rest.isEmpty
  | .body _ true :: rest => wellFormedBodies rest

/-- Whether `store_in_cache` stores the response (no `ResponseNotCachable`). -/
def storeSucceeds (response : Response) (request : Request)
    (cache : CacheState) (rules : List Rule) (writeOk : Bool) : Bool :=
  match store_in_cache response request cache rules writeOk with
  | .ok _ => true
  | .error () => false

/-! ## Theorems -/

theorem matchItemAccepts_eq_spec (item : MatchItem) (path : String) :
    matchItemAccepts item path = specItemMatches item path := by
  cases item with
  | pattern p => rfl
  | str s =>
    simp only [matchItemAccepts, specItemMatches]
    by_cases h : s = "*" <;> by_cases h2 : s = path <;> simp [h, h2]

theorem request_matches_rule_eq_spec (rule : Rule) (request : Request) :
    request_matches_rule rule request = specPathMatches rule.«match» request.path := by
  cases hm : rule.«match» with
  | single item =>
    simp [request_matches_rule, specPathMatches, ruleMatchList, hm,
      matchItemAccepts_eq_spec]
  | items l =>
    simp only [request_matches_rule, specPathMatches, ruleMatchList, hm]
    rw [show (fun item => matchItemAccepts item request.path)
        = (fun item => specItemMatches item request.path) from
      funext fun item => matchItemAccepts_eq_spec item request.path]

/-- C5: `get_rule_matching_response` implements the spec's `matchResponse`:
it returns the first rule in declaration order whose `match` accepts the
request path (literal `"*"` always, a literal string on exact equality, a
pattern when its anchored-at-start match succeeds, an iterable when any
member matches) and whose declared `status` set, if any, contains the
response status (no declared status matching every status); it returns
`none` when no rule satisfies the criteria. -/
theorem C5_get_rule_matching_response_eq_spec (rules : List Rule)
    (request : Request) (response : Response) :
    get_rule_matching_response rules request response =
      spec_matchResponse rules request.path response.status_code := by
  unfold get_rule_matching_response spec_matchResponse
  rw [show (fun rule => response_matches_rule rule request response)
      = (fun rule =>
          specPathMatches rule.«match» request.path &&
            match rule.status with
            | none => true
            | some spec => (statusList spec).contains response.status_code) from
    funext fun rule => by
      unfold response_matches_rule
      rw [request_matches_rule_eq_spec]]

/-- C3 counterexample: with `rules = [Rule(), Rule("/", ttl=0)]` and a 200
response for GET `/`, the ttl-0 rule matches the response and an earlier,
less-specific catch-all rule (ttl unset) also matches — the claim then
demands `ResponseNotCachable`, yet the response is stored: rule order
makes the earlier catch-all rule apply, so its unset ttl wins. -/
theorem C3_counterexample :
    response_matches_rule ⟨.single (.str "/"), none, some 0⟩ ⟨"GET", "/", []⟩
        ⟨200, [], []⟩ = true
    ∧ request_matches_rule ⟨.single (.str "*"), none, none⟩ ⟨"GET", "/", []⟩ = true
    ∧ storeSucceeds ⟨200, [], []⟩ ⟨"GET", "/", []⟩ emptyCache
        [⟨.single (.str "*"), none, none⟩, ⟨.single (.str "/"), none, some 0⟩]
        true = true := by
  exact ⟨rfl, rfl, rfl⟩

/-- C3 (amended): a matching rule whose ttl is 0 causes
`ResponseNotCachable` (the response is not stored) whenever it is the
first rule in declaration order matching the request path and response
status, even if a later, less-specific rule would have allowed caching —
rule order, not specificity, decides which rule applies. -/
theorem C3_first_matching_ttl0_not_cached (rules : List Rule)
    (request : Request) (response : Response) (cache : CacheState)
    (writeOk : Bool) (rule : Rule)
    (hm : get_rule_matching_response rules request response = some rule)
    (ht : rule.ttl = some 0) :
    store_in_cache response request cache rules writeOk = .error () := by
  unfold store_in_cache
  rw [hm]
  simp [ht]

/-- C3 witness: `rules = [Rule("/", ttl=0), Rule()]` (the configuration of
`test_rule_stacking`) — the ttl-0 rule is first, so a 200 response for
GET `/` is not stored. -/
theorem C3_first_matching_ttl0_not_cached_witness :
    store_in_cache ⟨200, [], []⟩ ⟨"GET", "/", []⟩ emptyCache
      [⟨.single (.str "/"), none, some 0⟩, ⟨.single (.str "*"), none, none⟩]
      true = .error () :=
  C3_first_matching_ttl0_not_cached _ _ _ _ _
    ⟨.single (.str "/"), none, some 0⟩ rfl rfl

theorem runResponder_passthrough (request : Request) (rules : List Rule)
    (writeOk : Bool) (st : ResponderState)
    (h : st.is_response_cachable = false) (ms : List Message) :
    runResponder request rules writeOk st ms = (st, ms) := by
  induction ms with
  | nil => rfl
  | cons m ms ih =>
    simp [runResponder, send_with_caching, h, ih]

theorem runResponder_start (request : Request) (rules : List Rule)
    (writeOk : Bool) (cache : CacheState) (s : Nat) (hd : Headers)
    (bodies : List Message) :
    runResponder request rules writeOk (initResponder cache)
        (.start s hd :: bodies)
      = runResponder request rules writeOk ⟨some (.start s hd), true, cache⟩
          bodies := by
  simp [runResponder, send_with_caching, initResponder]

theorem runResponder_streaming (request : Request) (rules : List Rule)
    (writeOk : Bool) (cache : CacheState) (s : Nat) (hd : Headers)
    (c : List Nat) (rest : List Message) :
    runResponder request rules writeOk ⟨some (.start s hd), true, cache⟩
        (.body c true :: rest)
      = (⟨some (.start s hd), false, cache⟩,
         .start s hd :: .body c true :: rest) := by
  simp only [runResponder]
  rw [show send_with_caching request rules writeOk
        ⟨some (.start s hd), true, cache⟩ (.body c true)
      = (⟨some (.start s hd), false, cache⟩, [.start s hd, .body c true])
    from rfl]
  rw [runResponder_passthrough _ _ _ _ rfl rest]
  rfl

theorem runResponder_final (request : Request) (rules : List Rule)
    (writeOk : Bool) (cache : CacheState) (s : Nat) (hd : Headers)
    (c : List Nat) :
    runResponder request rules writeOk ⟨some (.start s hd), true, cache⟩
        [.body c false]
      = match store_in_cache ⟨s, hd, c⟩ request cache rules writeOk with
        | .error () =>
          (⟨some (.start s hd), false, cache⟩, [.start s hd, .body c false])
        | .ok (r', c') =>
          (⟨some (.start s r'.headers), true, c'⟩,
           [.start s r'.headers, .body c false]) := by
  cases hst : store_in_cache ⟨s, hd, c⟩ request cache rules writeOk with
  | error e =>
    cases e
    simp [runResponder, send_with_caching, Message.statusOf, Message.headersOf,
      hst]
  | ok pr =>
    obtain ⟨r', c'⟩ := pr
    simp [runResponder, send_with_caching, Message.statusOf, Message.headersOf,
      hst]

/-- C1: on the cache-miss path the response interceptor forwards
downstream exactly one `http.response.start` message (same status,
headers possibly patched by the store) followed by every
`http.response.body` chunk produced by the wrapped app, in their original
order and each exactly once — whichever branch is taken (cachable,
not cachable, or streaming) and whether or not the store write succeeds. -/
theorem C1_interceptor_forwards_exactly_once (request : Request)
    (rules : List Rule) (writeOk : Bool) (cache : CacheState) (s : Nat)
    (hd : Headers) (bodies : List Message)
    (hwf : wellFormedBodies bodies = true) :
    ∃ hd', (runResponder request rules writeOk (initResponder cache)
        (.start s hd :: bodies)).2 = .start s hd' :: bodies := by
  rw [runResponder_start]
  cases bodies with
  | nil => simp [wellFormedBodies] at hwf
  | cons b rest =>
    cases b with
    | start s2 h2 => simp [wellFormedBodies] at hwf
    | body c more =>
      cases more with
      | true =>
        rw [runResponder_streaming]
        exact ⟨hd, rfl⟩
      | false =>
        cases rest with
        | cons r rs => simp [wellFormedBodies] at hwf
        | nil =>
          rw [runResponder_final]
          cases hst : store_in_cache ⟨s, hd, c⟩ request cache rules writeOk with
          | error e =>
            cases e
            simp only [hst]
            exact ⟨hd, rfl⟩
          | ok pr =>
            simp only [hst]
            exact ⟨pr.1.headers, rfl⟩

/-- C1 witness: a concrete single-chunk run — start then one final body
chunk — forwards exactly the start (headers patched with `X-Cache: miss`)
followed by that chunk. -/
theorem C1_interceptor_forwards_exactly_once_witness :
    ∃ hd', (runResponder ⟨"GET", "/", []⟩ [⟨.single (.str "*"), none, none⟩]
        true (initResponder emptyCache)
        [.start 200 [], .body [1, 2] false]).2
      = .start 200 hd' :: [.body [1, 2] false] :=
  C1_interceptor_forwards_exactly_once ⟨"GET", "/", []⟩
    [⟨.single (.str "*"), none, none⟩] true emptyCache 200 []
    [.body [1, 2] false] rfl

/-- C6: a response that delivers a body chunk with `more_body = True` is
never written to the cache store, for any configuration: the interceptor
marks the response not cachable, immediately flushes the buffered
(unmodified) start event followed by that chunk, and forwards all
subsequent chunks unmodified — and the cache store is left exactly as it
was. -/
theorem C6_streaming_never_stored (request : Request) (rules : List Rule)
    (writeOk : Bool) (cache : CacheState) (s : Nat) (hd : Headers)
    (bodies : List Message) (hwf : wellFormedBodies bodies = true)
    (hstream : ∃ chunk, Message.body chunk true ∈ bodies) :
    (runResponder request rules writeOk (initResponder cache)
        (.start s hd :: bodies)).2 = .start s hd :: bodies
    ∧ (runResponder request rules writeOk (initResponder cache)
        (.start s hd :: bodies)).1.cache = cache
    ∧ (runResponder request rules writeOk (initResponder cache)
        (.start s hd :: bodies)).1.is_response_cachable = false := by
  rw [runResponder_start]
  cases bodies with
  | nil => simp [wellFormedBodies] at hwf
  | cons b rest =>
    cases b with
    | start s2 h2 => simp [wellFormedBodies] at hwf
    | body c more =>
      cases more with
      | true =>
        rw [runResponder_streaming]
        exact ⟨rfl, rfl, rfl⟩
      | false =>
        cases rest with
        | cons r rs => simp [wellFormedBodies] at hwf
        | nil =>
          obtain ⟨chunk, hmem⟩ := hstream
          simp at hmem

/-- C6 witness: a two-chunk streaming response leaves the store untouched
and is forwarded verbatim. -/
theorem C6_streaming_never_stored_witness :
    (runResponder ⟨"GET", "/", []⟩ [⟨.single (.str "*"), none, none⟩] true
        (initResponder emptyCache)
        [.start 200 [], .body [1] true, .body [2] false]).2
      = .start 200 [] :: [.body [1] true, .body [2] false]
    ∧ (runResponder ⟨"GET", "/", []⟩ [⟨.single (.str "*"), none, none⟩] true
        (initResponder emptyCache)
        [.start 200 [], .body [1] true, .body [2] false]).1.cache = emptyCache
    ∧ (runResponder ⟨"GET", "/", []⟩ [⟨.single (.str "*"), none, none⟩] true
        (initResponder emptyCache)
        [.start 200 [], .body [1] true, .body [2] false]).1.is_response_cachable
      = false :=
  C6_streaming_never_stored ⟨"GET", "/", []⟩ [⟨.single (.str "*"), none, none⟩]
    true emptyCache 200 [] [.body [1] true, .body [2] false] rfl
    ⟨[1], List.mem_cons_self _ _⟩

theorem store_in_cache_writeFail (response : Response) (request : Request)
    (cache : CacheState) (rules : List Rule) (r' : Response) (c' : CacheState)
    (h : store_in_cache response request cache rules false = .ok (r', c')) :
    c' = cache := by
  unfold store_in_cache at h
  split at h
  · exact absurd h (by simp)
  · split at h
    · exact absurd h (by simp)
    · split at h
      · exact absurd h (by simp)
      · split at h
        · rename_i hft
          exact absurd hft (by simp)
        · simp only [Except.ok.injEq, Prod.mk.injEq] at h
          exact h.2.symm

/-- C4: with the cache-store write failing (`writeOk = false`,
modelling a store I/O error such as a timeout raised inside
`store_in_cache`), the error is absorbed and degrades to not-cached: the
buffered start message and every body chunk are still forwarded to the
caller in order, and the cache store is left exactly as it was. -/
theorem C4_store_failure_degrades (request : Request) (rules : List Rule)
    (cache : CacheState) (s : Nat) (hd : Headers) (bodies : List Message)
    (hwf : wellFormedBodies bodies = true) :
    ∃ hd', (runResponder request rules false (initResponder cache)
        (.start s hd :: bodies)).2 = .start s hd' :: bodies
      ∧ (runResponder request rules false (initResponder cache)
          (.start s hd :: bodies)).1.cache = cache := by
  rw [runResponder_start]
  cases bodies with
  | nil => simp [wellFormedBodies] at hwf
  | cons b rest =>
    cases b with
    | start s2 h2 => simp [wellFormedBodies] at hwf
    | body c more =>
      cases more with
      | true =>
        rw [runResponder_streaming]
        exact ⟨hd, rfl, rfl⟩
      | false =>
        cases rest with
        | cons r rs => simp [wellFormedBodies] at hwf
        | nil =>
          rw [runResponder_final]
          cases hst : store_in_cache ⟨s, hd, c⟩ request cache rules false with
          | error e =>
            cases e
            simp only [hst]
            exact ⟨hd, by simp⟩
          | ok pr =>
            obtain ⟨r', c'⟩ := pr
            simp only [hst]
            exact ⟨r'.headers, rfl, store_in_cache_writeFail _ _ _ _ r' c' hst⟩

/-- C4 witness: a concrete single-chunk cachable response under a failing
store write is still forwarded (start then chunk) and nothing is cached. -/
theorem C4_store_failure_degrades_witness :
    ∃ hd', (runResponder ⟨"GET", "/", []⟩ [⟨.single (.str "*"), none, none⟩]
        false (initResponder emptyCache)
        [.start 200 [], .body [1, 2] false]).2
      = .start 200 hd' :: [.body [1, 2] false]
      ∧ (runResponder ⟨"GET", "/", []⟩ [⟨.single (.str "*"), none, none⟩]
          false (initResponder emptyCache)
          [.start 200 [], .body [1, 2] false]).1.cache = emptyCache :=
  C4_store_failure_degrades ⟨"GET", "/", []⟩ [⟨.single (.str "*"), none, none⟩]
    emptyCache 200 [] [.body [1, 2] false] rfl

theorem get_from_cache_non_idempotent (request : Request) (cache : CacheState)
    (rules : List Rule) (hg : request.method ≠ "GET")
    (hh : request.method ≠ "HEAD") :
    get_from_cache request cache rules = .error () := by
  simp [get_from_cache, hg, hh]

/-- C7: a request whose method is not GET or HEAD is never looked up in
the cache — the lookup raises `RequestNotCachable`, recovered locally, so
the outcome neither replays a hit nor attaches the caching send wrapper
and does not depend on the cache contents at all — and such a request is
routed to the invalidation path exactly when its method is one of the
mutating `INVALIDATING_METHODS`, the handler running uncached otherwise. -/
theorem C7_non_idempotent_never_looked_up (request : Request)
    (cache cache' : CacheState) (rules : List Rule)
    (hg : request.method ≠ "GET") (hh : request.method ≠ "HEAD") :
    responderCall request cache rules = responderCall request cache' rules
    ∧ (responderCall request cache rules = .invalidate
        ∨ responderCall request cache rules = .plain)
    ∧ (responderCall request cache rules = .invalidate
        ↔ INVALIDATING_METHODS.contains request.method = true) := by
  have e1 := get_from_cache_non_idempotent request cache rules hg hh
  have e2 := get_from_cache_non_idempotent request cache' rules hg hh
  unfold responderCall
  rw [e1, e2]
  refine ⟨rfl, ?_, ?_⟩
  · by_cases hc : request.method ∈ INVALIDATING_METHODS
    · left; simp [hc]
    · right; simp [hc]
  · by_cases hc : request.method ∈ INVALIDATING_METHODS
    · simp [hc]
    · simp [hc]

/-- C7 witness: a POST request takes the invalidation path whatever the
cache holds; it is never answered from the cache. -/
theorem C7_non_idempotent_never_looked_up_witness :
    responderCall ⟨"POST", "/", []⟩ emptyCache []
      = responderCall ⟨"POST", "/", []⟩
          ⟨[("/", [])], [(⟨"/", []⟩, ⟨200, [], []⟩)]⟩ []
    ∧ (responderCall ⟨"POST", "/", []⟩ emptyCache [] = .invalidate
        ∨ responderCall ⟨"POST", "/", []⟩ emptyCache [] = .plain)
    ∧ (responderCall ⟨"POST", "/", []⟩ emptyCache [] = .invalidate
        ↔ INVALIDATING_METHODS.contains "POST" = true) :=
  C7_non_idempotent_never_looked_up ⟨"POST", "/", []⟩ emptyCache
    ⟨[("/", [])], [(⟨"/", []⟩, ⟨200, [], []⟩)]⟩ [] (by decide) (by decide)

theorem alistGet_filter_ne {α β : Type} [DecidableEq α] (l : List (α × β))
    (k : α) :
    alistGet (l.filter (fun p => decide (p.1 ≠ k))) k = none := by
  induction l with
  | nil => rfl
  | cons p ps ih =>
    simp only [List.filter_cons, decide_not] at ih ⊢
    by_cases h : p.1 = k
    · simp [h, ih]
    · simp [h, alistGet, ih]

/-- C8: on the invalidation path, the cache entry keyed to the request
URL is deleted exactly when the response status lies in `[200, 400)`: a
start message with such a status removes the entry under the derived key,
a start message with any other status leaves the cache untouched, and in
every case (start or body message) the message is still forwarded
downstream. -/
theorem C8_invalidate_iff_success (request : Request) (cache : CacheState)
    (s : Nat) (hd : Headers) (chunk : List Nat) (more : Bool) :
    (send_then_invalidate request cache (.start s hd)).2 = [.start s hd]
    ∧ send_then_invalidate request cache (.body chunk more)
        = (cache, [.body chunk more])
    ∧ (∀ names, 200 ≤ s → s < 400 →
        alistGet cache.varyIndex request.path = some names →
        alistGet (send_then_invalidate request cache (.start s hd)).1.entries
          (deriveKey request.path names request.headers) = none)
    ∧ (¬(200 ≤ s ∧ s < 400) →
        (send_then_invalidate request cache (.start s hd)).1 = cache) := by
  refine ⟨?_, rfl, ?_, ?_⟩
  · by_cases hr : 200 ≤ s ∧ s < 400 <;> simp [send_then_invalidate, hr]
  · intro names h1 h2 hidx
    simp only [send_then_invalidate, if_pos (And.intro h1 h2)]
    unfold delete_from_cache
    rw [hidx]
    exact alistGet_filter_ne _ _
  · intro hr
    simp [send_then_invalidate, hr]

/-- C8 witness: with one entry cached for `/`, a POST whose response
starts with status 204 deletes it and the message is forwarded, while a
response with status 500 leaves the cache untouched. -/
theorem C8_invalidate_iff_success_witness :
    (send_then_invalidate ⟨"POST", "/", []⟩
        ⟨[("/", [])], [(⟨"/", []⟩, ⟨200, [], []⟩)]⟩ (.start 204 [])).2
      = [.start 204 []]
    ∧ alistGet (send_then_invalidate ⟨"POST", "/", []⟩
        ⟨[("/", [])], [(⟨"/", []⟩, ⟨200, [], []⟩)]⟩ (.start 204 [])).1.entries
        (deriveKey "/" [] []) = none
    ∧ (send_then_invalidate ⟨"POST", "/", []⟩
        ⟨[("/", [])], [(⟨"/", []⟩, ⟨200, [], []⟩)]⟩ (.start 500 [])).1
      = ⟨[("/", [])], [(⟨"/", []⟩, ⟨200, [], []⟩)]⟩ :=
  ⟨(C8_invalidate_iff_success ⟨"POST", "/", []⟩
      ⟨[("/", [])], [(⟨"/", []⟩, ⟨200, [], []⟩)]⟩ 204 [] [] false).1,
   (C8_invalidate_iff_success ⟨"POST", "/", []⟩
      ⟨[("/", [])], [(⟨"/", []⟩, ⟨200, [], []⟩)]⟩ 204 [] [] false).2.2.1
     [] (by decide) (by decide) rfl,
   (C8_invalidate_iff_success ⟨"POST", "/", []⟩
      ⟨[("/", [])], [(⟨"/", []⟩, ⟨200, [], []⟩)]⟩ 500 [] [] false).2.2.2
     (by decide)⟩

/-- C10: for every scope whose type is not `"http"`, `CacheMiddleware`
invokes the wrapped application with the scope unchanged — no
duplicate-middleware check (no `DuplicateCaching` even when the scope
marker is already present), no scope marker added, no responder attached —
and `CacheControlMiddleware` likewise leaves `send` unwrapped. -/
theorem C10_non_http_passthrough (scope : Scope) (h : scope.type ≠ "http") :
    cacheMiddlewareCall scope = .ok (scope, false)
    ∧ cacheControlMiddlewareCall scope = false := by
  constructor
  · simp [cacheMiddlewareCall, h]
  · simp [cacheControlMiddlewareCall, h]

/-- C10 witness: a lifespan scope that even carries the cache marker is
passed through unchanged by both middlewares, with no error raised. -/
theorem C10_non_http_passthrough_witness :
    cacheMiddlewareCall ⟨"lifespan", true⟩ = .ok (⟨"lifespan", true⟩, false)
    ∧ cacheControlMiddlewareCall ⟨"lifespan", true⟩ = false :=
  C10_non_http_passthrough ⟨"lifespan", true⟩ (by decide)

theorem store_in_cache_ok_elim (response : Response) (request : Request)
    (cache : CacheState) (rules : List Rule) (r' : Response) (c' : CacheState)
    (h : store_in_cache response request cache rules true = .ok (r', c')) :
    r' = { response with headers := setHeader response.headers "X-Cache" "miss" }
    ∧ c' = ⟨alistPut cache.varyIndex request.path (varyNames response.headers),
            alistPut cache.entries
              (deriveKey request.path (varyNames response.headers)
                request.headers) r'⟩
    ∧ ∃ rule, get_rule_matching_response rules request response = some rule := by
  unfold store_in_cache at h
  split at h
  · exact absurd h (by simp)
  · rename_i rule hm
    split at h
    · exact absurd h (by simp)
    · split at h
      · exact absurd h (by simp)
      · split at h
        · simp only [Except.ok.injEq, Prod.mk.injEq] at h
          obtain ⟨h1, h2⟩ := h
          subst h1
          exact ⟨rfl, h2.symm, rule, hm⟩
        · rename_i hft
          exact absurd rfl hft

theorem map_pair_ne (V : List String) (f g : String → String) (n : String)
    (hn : n ∈ V) (hfg : f n ≠ g n) :
    V.map (fun x => (x, f x)) ≠ V.map (fun x => (x, g x)) := by
  induction V with
  | nil => cases hn
  | cons a V ih =>
    intro h
    simp only [List.map_cons, List.cons.injEq, Prod.mk.injEq] at h
    rcases List.mem_cons.mp hn with rfl | hmem
    · exact hfg h.1.2
    · exact ih hmem h.2

/-- C2: after a GET response for path `p` has been stored whose `Vary`
header names certain request headers, a later GET request to `p` with
identical values for every named header is answered from the cache with
the stored response's status and body; a request whose value for any
named header differs misses; and two requests differing only in headers
not named in `Vary` derive the same cache key, hence resolve to the same
entry.  A header the request lacks counts as having the empty value, per
§3 of the spec. -/
theorem C2_vary_partitioning (p : String) (h1 h2 : Headers)
    (response r' : Response) (rules : List Rule) (st' : CacheState)
    (hstore : store_in_cache response ⟨"GET", p, h1⟩ emptyCache rules true
      = .ok (r', st')) :
    ((∀ n ∈ varyNames response.headers,
        (headerGet h2 n).getD "" = (headerGet h1 n).getD "") →
      ∃ r, get_from_cache ⟨"GET", p, h2⟩ st' rules = .ok (some r)
        ∧ r.status_code = response.status_code ∧ r.body = response.body)
    ∧ ((∃ n ∈ varyNames response.headers,
        (headerGet h2 n).getD "" ≠ (headerGet h1 n).getD "") →
      get_from_cache ⟨"GET", p, h2⟩ st' rules = .ok none)
    ∧ ((∀ n ∈ varyNames response.headers,
        (headerGet h2 n).getD "" = (headerGet h1 n).getD "") →
      deriveKey p (varyNames response.headers) h2
        = deriveKey p (varyNames response.headers) h1) := by
  obtain ⟨hr', hc', rule, hm⟩ :=
    store_in_cache_ok_elim _ _ _ _ _ _ hstore
  have hm' : rules.find?
      (fun r => response_matches_rule r ⟨"GET", p, h1⟩ response) = some rule := hm
  have hpred := List.find?_some hm'
  have hmem : rule ∈ rules := List.mem_of_find?_eq_some hm'
  have hreq1 : request_matches_rule rule ⟨"GET", p, h1⟩ = true := by
    have hb : response_matches_rule rule ⟨"GET", p, h1⟩ response = true := hpred
    unfold response_matches_rule at hb
    rw [Bool.and_eq_true] at hb
    exact hb.1
  have hreq2 : request_matches_rule rule ⟨"GET", p, h2⟩ = true := hreq1
  have hsome : (get_rule_matching_request rules ⟨"GET", p, h2⟩).isSome :=
    List.find?_isSome.mpr ⟨rule, hmem, hreq2⟩
  obtain ⟨rule2, hrule2⟩ := Option.isSome_iff_exists.mp hsome
  subst hr' hc'
  refine ⟨?_, ?_, ?_⟩
  · intro hsame
    have hkey : deriveKey p (varyNames response.headers) h2
        = deriveKey p (varyNames response.headers) h1 :=
      congrArg (CacheKey.mk p)
        (List.map_congr_left fun n hn => by rw [hsame n hn])
    refine ⟨⟨response.status_code,
      setHeader (setHeader response.headers "X-Cache" "miss") "X-Cache" "hit",
      response.body⟩, ?_, rfl, rfl⟩
    unfold get_from_cache
    rw [if_pos (Or.inl rfl), hrule2]
    simp [alistGet, alistPut, emptyCache, hkey]
  · intro ⟨n, hn, hne⟩
    have hkeyne : deriveKey p (varyNames response.headers) h1
        ≠ deriveKey p (varyNames response.headers) h2 := by
      intro hk
      simp only [deriveKey, CacheKey.mk.injEq, true_and] at hk
      exact map_pair_ne (varyNames response.headers)
        (fun x => (headerGet h1 x).getD "") (fun x => (headerGet h2 x).getD "")
        n hn (fun e => hne e.symm) hk
    unfold get_from_cache
    rw [if_pos (Or.inl rfl), hrule2]
    simp [alistGet, alistPut, emptyCache, hkeyne]
  · intro hsame
    exact congrArg (CacheKey.mk p)
      (List.map_congr_left fun n hn => by rw [hsame n hn])

/-- C2 witness: after storing a gzip response with `Vary: Accept-Encoding`
for GET `/` under `Accept-Encoding: gzip`, a request sending the same
value (case-insensitive header name) hits with the stored status and
body, while a request sending `Accept-Encoding: identity` misses. -/
theorem C2_vary_partitioning_witness :
    (∃ r, get_from_cache ⟨"GET", "/", [("accept-encoding", "gzip")]⟩
        ⟨[("/", ["accept-encoding"])],
         [(⟨"/", [("accept-encoding", "gzip")]⟩,
           ⟨200, [("Vary", "Accept-Encoding"), ("X-Cache", "miss")], [1, 2]⟩)]⟩
        [⟨.single (.str "*"), none, none⟩] = .ok (some r)
      ∧ r.status_code = 200 ∧ r.body = [1, 2])
    ∧ get_from_cache ⟨"GET", "/", [("accept-encoding", "identity")]⟩
        ⟨[("/", ["accept-encoding"])],
         [(⟨"/", [("accept-encoding", "gzip")]⟩,
           ⟨200, [("Vary", "Accept-Encoding"), ("X-Cache", "miss")], [1, 2]⟩)]⟩
        [⟨.single (.str "*"), none, none⟩] = .ok none :=
  ⟨(C2_vary_partitioning "/" [("Accept-Encoding", "gzip")]
      [("accept-encoding", "gzip")]
      ⟨200, [("Vary", "Accept-Encoding")], [1, 2]⟩
      ⟨200, [("Vary", "Accept-Encoding"), ("X-Cache", "miss")], [1, 2]⟩
      [⟨.single (.str "*"), none, none⟩]
      ⟨[("/", ["accept-encoding"])],
       [(⟨"/", [("accept-encoding", "gzip")]⟩,
         ⟨200, [("Vary", "Accept-Encoding"), ("X-Cache", "miss")], [1, 2]⟩)]⟩
      rfl).1 (by decide),
   (C2_vary_partitioning "/" [("Accept-Encoding", "gzip")]
      [("accept-encoding", "identity")]
      ⟨200, [("Vary", "Accept-Encoding")], [1, 2]⟩
      ⟨200, [("Vary", "Accept-Encoding"), ("X-Cache", "miss")], [1, 2]⟩
      [⟨.single (.str "*"), none, none⟩]
      ⟨[("/", ["accept-encoding"])],
       [(⟨"/", [("accept-encoding", "gzip")]⟩,
         ⟨200, [("Vary", "Accept-Encoding"), ("X-Cache", "miss")], [1, 2]⟩)]⟩
      rfl).2.1 ⟨"accept-encoding", by decide, by decide⟩⟩

theorem headerGet_setHeader_self (hs : Headers) (n v : String) :
    headerGet (setHeader hs n v) n = some v := by
  induction hs with
  | nil => simp [setHeader, headerGet]
  | cons p ps ih =>
    by_cases h : lowerStr p.1 = lowerStr n
    · simp [setHeader, headerGet, h]
    · simp [setHeader, headerGet, h, ih]

theorem store_in_cache_ok_xcache (response : Response) (request : Request)
    (cache : CacheState) (rules : List Rule) (writeOk : Bool) (r' : Response)
    (c' : CacheState)
    (h : store_in_cache response request cache rules writeOk = .ok (r', c')) :
    headerGet r'.headers "X-Cache" = some "miss" := by
  unfold store_in_cache at h
  split at h
  · exact absurd h (by simp)
  · split at h
    · exact absurd h (by simp)
    · split at h
      · exact absurd h (by simp)
      · split at h
        · simp only [Except.ok.injEq, Prod.mk.injEq] at h
          rw [← h.1]
          exact headerGet_setHeader_self _ _ _
        · simp only [Except.ok.injEq, Prod.mk.injEq] at h
          rw [← h.1]
          exact headerGet_setHeader_self _ _ _

theorem get_from_cache_hit_xcache (request : Request) (cache : CacheState)
    (rules : List Rule) (r : Response)
    (h : get_from_cache request cache rules = .ok (some r)) :
    headerGet r.headers "X-Cache" = some "hit" := by
  unfold get_from_cache at h
  split at h
  · split at h
    · exact absurd h (by simp)
    · split at h
      · exact absurd h (by simp)
      · split at h
        · exact absurd h (by simp)
        · simp only [Except.ok.injEq, Option.some.injEq] at h
          rw [← h]
          exact headerGet_setHeader_self _ _ _
  · exact absurd h (by simp)

/-- C9: the `X-Cache` header is set with value `miss` on every response
that passes classification and is offered to the store, and with value
`hit` on every response replayed from the cache; when the response fails
classification (`ResponseNotCachable`) the interceptor forwards the
buffered start message with its headers untouched, and on the
never-eligible path (mutating methods) messages are forwarded verbatim —
so a response with no prior `X-Cache` header acquires one exactly when it
passed the cacheability decision. -/
theorem C9_xcache_header :
    (∀ response request cache rules writeOk r' c',
      store_in_cache response request cache rules writeOk = .ok (r', c') →
      headerGet r'.headers "X-Cache" = some "miss")
    ∧ (∀ request cache rules r,
      get_from_cache request cache rules = .ok (some r) →
      headerGet r.headers "X-Cache" = some "hit")
    ∧ (∀ request rules writeOk st chunk,
      st.is_response_cachable = true →
      store_in_cache ⟨(st.initial_message.getD (.start 0 [])).statusOf,
          (st.initial_message.getD (.start 0 [])).headersOf, chunk⟩
        request st.cache rules writeOk = .error () →
      send_with_caching request rules writeOk st (.body chunk false)
        = ({ st with is_response_cachable := false },
           [st.initial_message.getD (.start 0 []), .body chunk false]))
    ∧ (∀ request cache message,
      (send_then_invalidate request cache message).2 = [message]) := by
  refine ⟨store_in_cache_ok_xcache, get_from_cache_hit_xcache, ?_, ?_⟩
  · intro request rules writeOk st chunk hcach hst
    simp [send_with_caching, hcach, hst]
  · intro request cache message
    cases message with
    | start s hd => by_cases hr : 200 ≤ s ∧ s < 400 <;>
        simp [send_then_invalidate, hr]
    | body chunk more => rfl

/-- C9 witness: a stored 200 response carries `X-Cache: miss`; replaying
it yields `X-Cache: hit`; a 404 under the default rule fails
classification and its start message is forwarded with headers untouched;
the invalidation path forwards a start message verbatim. -/
theorem C9_xcache_header_witness :
    headerGet (Response.headers ⟨200, [("X-Cache", "miss")], []⟩) "X-Cache"
      = some "miss"
    ∧ headerGet (Response.headers ⟨200, [("X-Cache", "hit")], []⟩) "X-Cache"
      = some "hit"
    ∧ send_with_caching ⟨"GET", "/", []⟩ [⟨.single (.str "*"), none, none⟩]
        true ⟨some (.start 404 []), true, emptyCache⟩ (.body [] false)
      = (⟨some (.start 404 []), false, emptyCache⟩,
         [.start 404 [], .body [] false])
    ∧ (send_then_invalidate ⟨"POST", "/", []⟩ emptyCache (.start 204 [])).2
      = [.start 204 []] :=
  ⟨C9_xcache_header.1 ⟨200, [], []⟩ ⟨"GET", "/", []⟩ emptyCache
      [⟨.single (.str "*"), none, none⟩] true ⟨200, [("X-Cache", "miss")], []⟩
      ⟨[("/", [])], [(⟨"/", []⟩, ⟨200, [("X-Cache", "miss")], []⟩)]⟩ rfl,
   C9_xcache_header.2.1 ⟨"GET", "/", []⟩
      ⟨[("/", [])], [(⟨"/", []⟩, ⟨200, [("X-Cache", "miss")], []⟩)]⟩
      [⟨.single (.str "*"), none, none⟩] ⟨200, [("X-Cache", "hit")], []⟩ rfl,
   C9_xcache_header.2.2.1 ⟨"GET", "/", []⟩ [⟨.single (.str "*"), none, none⟩]
      true ⟨some (.start 404 []), true, emptyCache⟩ [] rfl rfl,
   C9_xcache_header.2.2.2 ⟨"POST", "/", []⟩ emptyCache (.start 204 [])⟩

end StarletteCaches
